import Mathlib

/-!
# Verification of the order-intake pipeline of `app-backend`

Shallow embedding of the order-intake pipeline from `src/routes/orders.js`
and the SQL stored procedure `update_product_stock` from the supabase
migrations. JavaScript numbers are modelled as rationals (`ℚ`);
integer quantities and stock counts as `ℤ`; absent (`undefined`/`null`)
fields as `Option`; JS truthiness tests on numeric fields as
"present and nonzero".
-/

namespace AppBackend

/-- A row of the `products` table, restricted to the columns the pipeline
reads (`id, length_mm, width_mm, box_moq`, plus `stock` for the decrement).
`length_mm`, `width_mm` are nullable `numeric` columns; `box_moq` is a
nullable `integer` (default 1). Product ids (UUIDs) are abstracted to `Nat`. -/
structure Product where
  id : Nat
  length_mm : Option ℚ
  width_mm : Option ℚ
  box_moq : Option ℤ
  stock : ℤ
  deriving Repr, DecidableEq

/-- An order line as it appears in the request body after validation:
`product_id`, an integer `quantity`, and an optional `coverage`. -/
structure Item where
  product_id : Nat
  quantity : ℤ
  coverage : Option ℚ
  deriving Repr, DecidableEq

/-- JS truthiness of a possibly-absent numeric field: `undefined`/`null`
and `0` are falsy, every other number is truthy. -/
def truthyQ : Option ℚ → Bool
  | none => false
  | some x => x != 0

/-- `calculateTileQuantity` from `src/routes/orders.js` lines 9-15:
`tileArea = (length * width) / (1000 * 1000) * 10.764`,
`piecesNeeded = Math.ceil(coverage / tileArea)`, and if `boxMoq > 1`
the result is rounded up to the next multiple of `boxMoq`.
The decimal constant 10.764 is the rational 2691/250. -/
def calculateTileQuantity (length width coverage : ℚ) (boxMoq : ℤ) : ℤ :=
  let tileArea : ℚ := (length * width) / (1000 * 1000) * (2691 / 250)
  let piecesNeeded : ℤ := Int.ceil (coverage / tileArea)
  if boxMoq > 1 then Int.ceil ((piecesNeeded : ℚ) / (boxMoq : ℚ)) * boxMoq else piecesNeeded

/-- One step of the `adjustedItems` map from `src/routes/orders.js`
lines 56-70: look the product up in the fetched rows; if the product was
found and `item.coverage`, `product.length_mm`, `product.width_mm` are all
truthy, replace the quantity by `calculateTileQuantity`; otherwise return
the item unchanged. A `null` `box_moq` and the `boxMoq = 1` default both
make the `boxMoq > 1` test false, hence the `getD 1`. -/
def adjustItem (products : List Product) (item : Item) : Item :=
  match products.find? (fun p => p.id == item.product_id) with
  | some product =>
    if truthyQ item.coverage && truthyQ product.length_mm && truthyQ product.width_mm then
      { item with
        quantity := calculateTileQuantity (product.length_mm.getD 0)
          (product.width_mm.getD 0) (item.coverage.getD 0) (product.box_moq.getD 1) }
    else item
  | none => item

/-- The `WHERE` clause of the SQL `UPDATE` in `update_product_stock`:
`id = p_product_id AND stock >= p_quantity`. -/
def matchesDecrement (pid : Nat) (q : ℤ) (p : Product) : Bool :=
  p.id == pid && decide (q ≤ p.stock)

/-- The `SET stock = stock - p_quantity` effect of `update_product_stock`
on one row, applied exactly to the rows matched by the `WHERE` clause. -/
def applyDecrement (pid : Nat) (q : ℤ) (p : Product) : Product :=
  if matchesDecrement pid q p then { p with stock := p.stock - q } else p

/-- The SQL function `update_product_stock(p_product_id, p_quantity)` from
the migration: `UPDATE products SET stock = stock - p_quantity WHERE id =
p_product_id AND stock >= p_quantity`, followed by
`IF NOT FOUND THEN RAISE EXCEPTION`; `none` models the raised exception
(no row affected, table unchanged). -/
def update_product_stock (db : List Product) (pid : Nat) (q : ℤ) :
    Option (List Product) :=
  if db.any (matchesDecrement pid q) then some (db.map (applyDecrement pid q)) else none

/-- The stock-decrement loop of `src/routes/orders.js` lines 91-106: the
lines are processed in order; the first failing decrement stops the loop.
Returns the resulting `products` table and whether every decrement
succeeded. -/
def processDecrements (db : List Product) : List Item → List Product × Bool
  | [] => (db, true)
  | item :: rest =>
    match update_product_stock db item.product_id item.quantity with
    | some db2 => processDecrements db2 rest
    | none => (db, false)

/-- The persisted order row, restricted to the fields the pipeline writes. -/
structure OrderRow where
  items : List Item
  status : String
  payment_status : String
  deriving Repr, DecidableEq

/-- Observable outcome of one `POST /orders` request: the final `products`
table, the persisted order row, the HTTP status, the `retry` flag of the
error body, and the items echoed in a success response. -/
structure PlaceOutcome where
  db : List Product
  order : OrderRow
  httpStatus : Nat
  retry : Bool
  responseItems : Option (List Item)
  deriving Repr, DecidableEq

/-- The `router.post('/')` handler body of `src/routes/orders.js` lines
43-133 after validation: compute `adjustedItems`, insert the order with
status `pending`/`pending`, run the decrement loop; on a failing decrement
update the order to `cancelled`/`cancelled` and answer 500 with
`retry: true`; on success answer 201 echoing the adjusted items. -/
def placeOrder (db : List Product) (items : List Item) : PlaceOutcome :=
  let adjustedItems := items.map (adjustItem db)
  let inserted : OrderRow :=
    { items := adjustedItems, status := "pending", payment_status := "pending" }
  let result := processDecrements db adjustedItems
  if result.2 then
    { db := result.1, order := inserted, httpStatus := 201, retry := false,
      responseItems := some adjustedItems }
  else
    { db := result.1,
      order := { inserted with status := "cancelled", payment_status := "cancelled" },
      httpStatus := 500, retry := true, responseItems := none }

/-- A request-body order line before validation: `quantity` and `coverage`
may each be absent. -/
structure ReqItem where
  product_id : Nat
  quantity : Option ℤ
  coverage : Option ℚ
  deriving Repr, DecidableEq

/-- A `POST /orders` request body. -/
structure OrderRequest where
  items : List ReqItem
  totalAmount : ℚ
  street : String
  city : String
  state : String
  zipCode : String
  deriving Repr, DecidableEq

/-- The per-line part of the `validateOrder` chain (`src/routes/orders.js`
lines 20-22): `quantity` must be an integer ≥ 1 (the rule carries no
`.optional()`, so an absent quantity fails the validator), while
`coverage` is optional but must be ≥ 0 when present. -/
def isValidItem (it : ReqItem) : Bool :=
  (match it.quantity with
   | some q => decide (1 ≤ q)
   | none => false) &&
  (match it.coverage with
   | some c => decide (0 ≤ c)
   | none => true)

/-- The `validateOrder` middleware chain of `src/routes/orders.js` lines
18-29: `items` a non-empty array of valid lines, `totalAmount` a float ≥ 0,
and the four address fields non-empty. `false` means the handler answers
400 (lines 38-41). -/
def validateOrder (r : OrderRequest) : Bool :=
  !r.items.isEmpty && r.items.all isValidItem && decide (0 ≤ r.totalAmount) &&
  !r.street.isEmpty && !r.city.isEmpty && !r.state.isEmpty && !r.zipCode.isEmpty

/-- Modelled from the spec (§4.1, §8): the single-unit coverage area,
`area_sqft = (length_mm * width_mm) / 1_000_000 * 10.764`. -/
def specAreaSqft (length width : ℚ) : ℚ :=
  (length * width) / 1000000 * (2691 / 250)

/-- Modelled from the spec (§4.1, §8): raw pieces needed,
`pieces = ceil(coverage / area_sqft)`. -/
def specPieces (length width coverage : ℚ) : ℤ :=
  Int.ceil (coverage / specAreaSqft length width)

/-- The stock recorded for product `pid` in the table: the `stock` field of
the row with that id (`none` when the product does not exist). -/
def stockOf (db : List Product) (pid : Nat) : Option ℤ :=
  (db.find? (fun p => p.id == pid)).map Product.stock

/-- Total quantity ordered for product `pid` across the lines of an order. -/
def orderedQty : List Item → Nat → ℤ
  | [], _ => 0
  | it :: rest, pid =>
    (if it.product_id = pid then it.quantity else 0) + orderedQty rest pid

/-! ## Basic lemmas about the stock decrement -/

theorem applyDecrement_id (pid : Nat) (q : ℤ) (p : Product) :
    (applyDecrement pid q p).id = p.id := by
  unfold applyDecrement
  split <;> rfl

theorem applyDecrement_stock_nonneg (pid : Nat) (q : ℤ) (p : Product)
    (h : 0 ≤ p.stock) : 0 ≤ (applyDecrement pid q p).stock := by
  unfold applyDecrement
  split
  · next hcond =>
      have hq : q ≤ p.stock := by
        have h2 := (Bool.and_eq_true _ _).mp hcond |>.2
        exact of_decide_eq_true h2
      simpa using sub_nonneg.mpr hq
  · exact h

theorem update_product_stock_eq_some {db db2 : List Product} {pid : Nat} {q : ℤ}
    (h : update_product_stock db pid q = some db2) :
    db2 = db.map (applyDecrement pid q) ∧ db.any (matchesDecrement pid q) = true := by
  unfold update_product_stock at h
  split at h
  · next hany => exact ⟨(Option.some.injEq _ _).mp h |>.symm, hany⟩
  · cases h

theorem update_stock_nonneg {db db2 : List Product} {pid : Nat} {q : ℤ}
    (h : update_product_stock db pid q = some db2)
    (hnn : ∀ p ∈ db, 0 ≤ p.stock) : ∀ p ∈ db2, 0 ≤ p.stock := by
  obtain ⟨rfl, -⟩ := update_product_stock_eq_some h
  intro p hp
  obtain ⟨r, hr, rfl⟩ := List.mem_map.mp hp
  exact applyDecrement_stock_nonneg _ _ _ (hnn r hr)

theorem processDecrements_nonneg (items : List Item) (db : List Product)
    (hnn : ∀ p ∈ db, 0 ≤ p.stock) :
    ∀ p ∈ (processDecrements db items).1, 0 ≤ p.stock := by
  induction items generalizing db with
  | nil => simpa [processDecrements] using hnn
  | cons it rest ih =>
      cases hupd : update_product_stock db it.product_id it.quantity with
      | none => simp only [processDecrements, hupd]; simpa using hnn
      | some db2 =>
          simp only [processDecrements, hupd]
          exact ih db2 (update_stock_nonneg hupd hnn)

/-- **C1.** For every product row with nonnegative stock and requested
quantity `q ≥ 1`, one invocation of `update_product_stock` either (when the
row's stock is at least `q`) succeeds and replaces that row's stock by
`stock - q`, still nonnegative, or (when every row with that id has stock
below `q`) affects no row and raises; any successful result keeps every
stock nonnegative, and consequently a whole sequence of decrements (the
order loop) never drives any stock negative. -/
theorem stock_never_negative (db : List Product) (pid : Nat) (q : ℤ)
    (items : List Item) (hq : 1 ≤ q) (hnn : ∀ p ∈ db, 0 ≤ p.stock) :
    (∀ r ∈ db, r.id = pid → q ≤ r.stock →
        ∃ db2, update_product_stock db pid q = some db2 ∧
          ({ r with stock := r.stock - q } : Product) ∈ db2 ∧ 0 ≤ r.stock - q) ∧
    ((∀ r ∈ db, r.id = pid → r.stock < q) → update_product_stock db pid q = none) ∧
    (∀ db2, update_product_stock db pid q = some db2 → ∀ r ∈ db2, 0 ≤ r.stock) ∧
    (∀ r ∈ (processDecrements db items).1, 0 ≤ r.stock) := by
  refine ⟨?_, ?_, ?_, ?_⟩
  · intro r hr hid hle
    refine ⟨db.map (applyDecrement pid q), ?_, ?_, sub_nonneg.mpr hle⟩
    · unfold update_product_stock
      rw [if_pos]
      rw [List.any_eq_true]
      exact ⟨r, hr, by simp [matchesDecrement, hid, hle]⟩
    · have hrow : applyDecrement pid q r = { r with stock := r.stock - q } := by
        simp [applyDecrement, matchesDecrement, hid, hle]
      exact hrow ▸ List.mem_map_of_mem _ hr
  · intro hall
    unfold update_product_stock
    rw [if_neg]
    rw [List.any_eq_true]
    rintro ⟨r, hr, hm⟩
    have h1 := (Bool.and_eq_true _ _).mp hm
    have hid : r.id = pid := by simpa using h1.1
    have hle : q ≤ r.stock := of_decide_eq_true h1.2
    exact absurd hle (not_le.mpr (hall r hr hid))
  · intro db2 h
    exact update_stock_nonneg h hnn
  · exact processDecrements_nonneg items db hnn

/-- **C2.** Whenever some line's stock decrement fails, the handler sets
both `status` and `payment_status` of the persisted order to `cancelled`
and answers 500 with `retry: true`. -/
theorem cancelled_on_failed_decrement (db : List Product) (items : List Item)
    (hf : (processDecrements db (items.map (adjustItem db))).2 = false) :
    (placeOrder db items).order.status = "cancelled" ∧
    (placeOrder db items).order.payment_status = "cancelled" ∧
    (placeOrder db items).httpStatus = 500 ∧
    (placeOrder db items).retry = true := by
  simp [placeOrder, hf]

/-! ## Quantity resolution -/

theorem calculateTileQuantity_eq (length width coverage : ℚ) (m : ℤ) :
    calculateTileQuantity length width coverage m =
      if m > 1 then
        Int.ceil ((specPieces length width coverage : ℚ) / (m : ℚ)) * m
      else specPieces length width coverage := by
  unfold calculateTileQuantity specPieces specAreaSqft
  norm_num

theorem ceil_div_mul_ge (p m : ℤ) (hm : 0 < m) :
    p ≤ Int.ceil ((p : ℚ) / (m : ℚ)) * m := by
  have hm0 : (0 : ℚ) < (m : ℚ) := by exact_mod_cast hm
  have h1 : (p : ℚ) / m ≤ (Int.ceil ((p : ℚ) / m) : ℚ) := Int.le_ceil _
  have h2 : (p : ℚ) ≤ (Int.ceil ((p : ℚ) / m) : ℚ) * m := (div_le_iff hm0).mp h1
  exact_mod_cast h2

theorem ceil_div_mul_min (p m n : ℤ) (hm : 0 < m) (hd : m ∣ n) (hn : p ≤ n) :
    Int.ceil ((p : ℚ) / (m : ℚ)) * m ≤ n := by
  obtain ⟨k, rfl⟩ := hd
  have hm0 : (0 : ℚ) < (m : ℚ) := by exact_mod_cast hm
  have h1 : (p : ℚ) / m ≤ (k : ℚ) := by
    rw [div_le_iff hm0]
    have : (p : ℚ) ≤ (m : ℚ) * (k : ℚ) := by exact_mod_cast hn
    linarith
  have h2 : Int.ceil ((p : ℚ) / m) ≤ k := Int.ceil_le.mpr h1
  calc Int.ceil ((p : ℚ) / m) * m ≤ k * m :=
        mul_le_mul_of_nonneg_right h2 (le_of_lt hm)
    _ = m * k := mul_comm _ _

/-- **C3.** For positive dimensions and coverage with `box_moq = 1`, the
resolved quantity is exactly the spec's `ceil(coverage / area_sqft)` with
`area_sqft = length*width/1_000_000*10.764`; the 300×300, coverage 100
scenario yields 104. -/
theorem resolved_quantity_moq_one (length width coverage : ℚ)
    (hl : 0 < length) (hw : 0 < width) (hc : 0 < coverage) :
    calculateTileQuantity length width coverage 1 = specPieces length width coverage ∧
    calculateTileQuantity 300 300 100 1 = 104 := by
  constructor
  · rw [calculateTileQuantity_eq]
    norm_num
  · rw [calculateTileQuantity_eq]
    norm_num [specPieces, specAreaSqft]
    rw [Int.ceil_eq_iff] <;> norm_num

theorem resolved_quantity_moq_one_witness :
    ((0 : ℚ) < 300 ∧ (0 : ℚ) < 300 ∧ (0 : ℚ) < 100) ∧
    (calculateTileQuantity 300 300 100 1 = specPieces 300 300 100 ∧
     calculateTileQuantity 300 300 100 1 = 104) :=
  ⟨⟨by norm_num, by norm_num, by norm_num⟩,
    resolved_quantity_moq_one 300 300 100 (by norm_num) (by norm_num) (by norm_num)⟩

/-- **C4.** For positive dimensions and coverage with `box_moq = m > 1`, the
resolved quantity is the smallest multiple of `m` that is at least
`ceil(coverage / area_sqft)`; the 300×300, coverage 100, `box_moq = 10`
scenario yields 110. -/
theorem resolved_quantity_moq_many (length width coverage : ℚ) (m : ℤ)
    (hl : 0 < length) (hw : 0 < width) (hc : 0 < coverage) (hm : 1 < m) :
    m ∣ calculateTileQuantity length width coverage m ∧
    specPieces length width coverage ≤ calculateTileQuantity length width coverage m ∧
    (∀ n : ℤ, m ∣ n → specPieces length width coverage ≤ n →
      calculateTileQuantity length width coverage m ≤ n) ∧
    calculateTileQuantity 300 300 100 10 = 110 := by
  have hm0 : 0 < m := lt_trans one_pos hm
  refine ⟨?_, ?_, ?_, ?_⟩
  · rw [calculateTileQuantity_eq, if_pos hm]
    exact dvd_mul_left m _
  · rw [calculateTileQuantity_eq, if_pos hm]
    exact ceil_div_mul_ge _ _ hm0
  · intro n hd hn
    rw [calculateTileQuantity_eq, if_pos hm]
    exact ceil_div_mul_min _ _ _ hm0 hd hn
  · simp only [calculateTileQuantity]
    norm_num
    rw [show Int.ceil ((2500000 : ℚ) / 24219) = 104 by rw [Int.ceil_eq_iff] <;> norm_num]
    norm_num
    rw [show Int.ceil ((52 : ℚ) / 5) = 11 by rw [Int.ceil_eq_iff] <;> norm_num]
    norm_num

theorem resolved_quantity_moq_many_witness :
    ((0 : ℚ) < 300 ∧ (0 : ℚ) < 300 ∧ (0 : ℚ) < 100 ∧ (1 : ℤ) < 10) ∧
    ((10 : ℤ) ∣ calculateTileQuantity 300 300 100 10 ∧
     specPieces 300 300 100 ≤ calculateTileQuantity 300 300 100 10 ∧
     (∀ n : ℤ, (10 : ℤ) ∣ n → specPieces 300 300 100 ≤ n →
       calculateTileQuantity 300 300 100 10 ≤ n) ∧
     calculateTileQuantity 300 300 100 10 = 110) :=
  ⟨⟨by norm_num, by norm_num, by norm_num, by norm_num⟩,
    resolved_quantity_moq_many 300 300 100 10
      (by norm_num) (by norm_num) (by norm_num) (by norm_num)⟩

/-- **C9.** Whenever resolution applies the area math (positive coverage,
positive dimensions, `box_moq ≥ 1`), the resolved quantity is at least 1. -/
theorem resolved_quantity_pos (length width coverage : ℚ) (m : ℤ)
    (hl : 0 < length) (hw : 0 < width) (hc : 0 < coverage) (hm : 1 ≤ m) :
    1 ≤ calculateTileQuantity length width coverage m := by
  have harea : 0 < specAreaSqft length width := by
    unfold specAreaSqft
    positivity
  have hp : 1 ≤ specPieces length width coverage := by
    have h0 : 0 < Int.ceil (coverage / specAreaSqft length width) :=
      Int.ceil_pos.mpr (div_pos hc harea)
    unfold specPieces
    omega
  rw [calculateTileQuantity_eq]
  by_cases h1 : m > 1
  · rw [if_pos h1]
    exact le_trans hp (ceil_div_mul_ge _ _ (lt_trans one_pos h1))
  · rw [if_neg h1]
    exact hp

theorem resolved_quantity_pos_witness :
    ((0 : ℚ) < 300 ∧ (0 : ℚ) < 300 ∧ (0 : ℚ) < 100 ∧ (1 : ℤ) ≤ 1) ∧
    1 ≤ calculateTileQuantity 300 300 100 1 :=
  ⟨⟨by norm_num, by norm_num, by norm_num, by norm_num⟩,
    resolved_quantity_pos 300 300 100 1
      (by norm_num) (by norm_num) (by norm_num) (by norm_num)⟩

/-! ## Tracking individual stocks through the decrement loop -/

theorem find?_map_applyDecrement (pid2 pid : Nat) (q : ℤ) (db : List Product) :
    (db.map (applyDecrement pid q)).find? (fun p => p.id == pid2) =
      (db.find? (fun p => p.id == pid2)).map (applyDecrement pid q) := by
  induction db with
  | nil => rfl
  | cons p rest ih =>
      rw [List.map_cons, List.find?_cons, List.find?_cons, applyDecrement_id]
      cases h : (p.id == pid2) with
      | true => rfl
      | false => exact ih

theorem stockOf_update_other {db db2 : List Product} {pid : Nat} {q : ℤ}
    (h : update_product_stock db pid q = some db2) (pid2 : Nat) (hne : pid2 ≠ pid) :
    stockOf db2 pid2 = stockOf db pid2 := by
  obtain ⟨rfl, -⟩ := update_product_stock_eq_some h
  unfold stockOf
  rw [find?_map_applyDecrement]
  cases hf : db.find? (fun p => p.id == pid2) with
  | none => rfl
  | some r =>
      have hrid : r.id = pid2 := by simpa using List.find?_some hf
      have hfix : applyDecrement pid q r = r := by
        unfold applyDecrement
        rw [if_neg (by simp [matchesDecrement, hrid, hne])]
      simp [hfix]

theorem stockOf_update_self {db db2 : List Product} {pid : Nat} {q : ℤ}
    (hu : (db.map Product.id).Nodup)
    (h : update_product_stock db pid q = some db2) :
    stockOf db2 pid = (stockOf db pid).map (fun s => s - q) := by
  induction db generalizing db2 with
  | nil =>
      obtain ⟨rfl, hany⟩ := update_product_stock_eq_some h
      cases hany
  | cons p rest ih =>
      obtain ⟨rfl, hany⟩ := update_product_stock_eq_some h
      have hu' : (p.id :: rest.map Product.id).Nodup := by
        rw [List.map_cons] at hu
        exact hu
      have hu2 := List.nodup_cons.mp hu'
      by_cases hid : p.id = pid
      · have hrestid : ∀ r ∈ rest, r.id ≠ pid := by
          intro r hr hrid
          exact hu2.1 (by
            rw [hid, ← hrid]
            exact List.mem_map_of_mem _ hr)
        have hrest_any : rest.any (matchesDecrement pid q) = false := by
          rw [List.any_eq_false]
          intro r hr
          simp [matchesDecrement, hrestid r hr]
        have hq : q ≤ p.stock := by
          rw [List.any_cons, hrest_any, Bool.or_false] at hany
          have := (Bool.and_eq_true _ _).mp hany |>.2
          exact of_decide_eq_true this
        have hrow : applyDecrement pid q p = { p with stock := p.stock - q } := by
          simp [applyDecrement, matchesDecrement, hid, hq]
        unfold stockOf
        rw [List.map_cons, List.find?_cons, List.find?_cons, applyDecrement_id,
          show (p.id == pid) = true from by simp [hid]]
        simp [hrow]
      · have hpfalse : matchesDecrement pid q p = false := by
          simp [matchesDecrement, hid]
        have happ : applyDecrement pid q p = p := by
          simp [applyDecrement, hpfalse]
        have hrest_any : rest.any (matchesDecrement pid q) = true := by
          rw [List.any_cons, hpfalse, Bool.false_or] at hany
          exact hany
        have hupd : update_product_stock rest pid q =
            some (rest.map (applyDecrement pid q)) := by
          unfold update_product_stock
          rw [if_pos hrest_any]
        have ihr := ih hu2.2 hupd
        unfold stockOf at ihr ⊢
        rw [List.map_cons, List.find?_cons, List.find?_cons, applyDecrement_id,
          show (p.id == pid) = false from by simp [hid]]
        simpa using ihr

theorem update_product_stock_ids {db db2 : List Product} {pid : Nat} {q : ℤ}
    (h : update_product_stock db pid q = some db2) :
    db2.map Product.id = db.map Product.id := by
  obtain ⟨rfl, -⟩ := update_product_stock_eq_some h
  rw [List.map_map]
  exact List.map_congr_left (fun p _ => applyDecrement_id pid q p)

theorem stockOf_processDecrements_success (items : List Item) (db : List Product)
    (hu : (db.map Product.id).Nodup)
    (hs : (processDecrements db items).2 = true) (pid : Nat) (s : ℤ)
    (h0 : stockOf db pid = some s) :
    stockOf (processDecrements db items).1 pid = some (s - orderedQty items pid) := by
  induction items generalizing db s with
  | nil =>
      simp only [processDecrements, orderedQty]
      rw [h0]
      norm_num
  | cons it rest ih =>
      cases hupd : update_product_stock db it.product_id it.quantity with
      | none =>
          simp only [processDecrements, hupd] at hs
          cases hs
      | some db2 =>
          simp only [processDecrements, hupd] at hs ⊢
          have hu2 : (db2.map Product.id).Nodup := by
            rw [update_product_stock_ids hupd]
            exact hu
          by_cases hpid : it.product_id = pid
          · have h2 : stockOf db2 pid = some (s - it.quantity) := by
              rw [stockOf_update_self hu (hpid ▸ hupd), h0, Option.map_some']
            have := ih db2 hu2 hs (s - it.quantity) h2
            rw [this]
            simp only [orderedQty, if_pos hpid]
            congr 1
            ring
          · have h2 : stockOf db2 pid = some s := by
              rw [stockOf_update_other hupd pid (fun hh => hpid hh.symm), h0]
            have := ih db2 hu2 hs s h2
            rw [this]
            simp only [orderedQty, if_neg hpid]
            congr 1
            ring

theorem processDecrements_append_fail (pre : List Item) (b : Item) (post : List Item)
    (db db1 : List Product)
    (hpre : processDecrements db pre = (db1, true))
    (hb : update_product_stock db1 b.product_id b.quantity = none) :
    processDecrements db (pre ++ b :: post) = (db1, false) := by
  induction pre generalizing db with
  | nil =>
      simp only [processDecrements] at hpre
      rw [Prod.mk.injEq] at hpre
      obtain ⟨rfl, -⟩ := hpre
      simp only [List.nil_append, processDecrements, hb]
  | cons a rest ih =>
      cases hupd : update_product_stock db a.product_id a.quantity with
      | none =>
          simp only [processDecrements, hupd, Prod.mk.injEq] at hpre
          cases hpre.2
      | some db2 =>
          simp only [processDecrements, hupd] at hpre
          simp only [List.cons_append, processDecrements, hupd]
          exact ih db2 hpre

/-- **C7.** For every cart whose adjusted lines split as a fully successful
prefix, a line whose decrement fails, and a remainder, the order is
persisted as `cancelled` (both statuses) and nothing is reverted: the final
table is exactly the state left by the successful prefix, so every
product's stock stays at its decremented value — its initial stock minus
the summed quantities the prefix took from it. -/
theorem no_rollback_on_partial_failure (db : List Product) (items : List Item)
    (pre : List Item) (b : Item) (post : List Item) (db1 : List Product)
    (hu : (db.map Product.id).Nodup)
    (hadj : items.map (adjustItem db) = pre ++ b :: post)
    (hpre : processDecrements db pre = (db1, true))
    (hb : update_product_stock db1 b.product_id b.quantity = none) :
    (placeOrder db items).order.status = "cancelled" ∧
    (placeOrder db items).order.payment_status = "cancelled" ∧
    (placeOrder db items).db = db1 ∧
    ∀ pid s, stockOf db pid = some s →
      stockOf (placeOrder db items).db pid = some (s - orderedQty pre pid) := by
  have hrun : processDecrements db (items.map (adjustItem db)) = (db1, false) := by
    rw [hadj]
    exact processDecrements_append_fail pre b post db db1 hpre hb
  have hfail : (processDecrements db (items.map (adjustItem db))).2 = false := by
    rw [hrun]
  have hdb : (placeOrder db items).db = db1 := by
    simp [placeOrder, hfail, hrun]
  refine ⟨by simp [placeOrder, hfail], by simp [placeOrder, hfail], hdb, ?_⟩
  intro pid s hs
  have hsucc := stockOf_processDecrements_success pre db hu (by rw [hpre]) pid s hs
  rw [hpre] at hsucc
  rw [hdb]
  exact hsucc

/-- **C10.** On the success path the same adjusted item list is stored in
the persisted order, echoed in the response, and drives the decrements: the
final stock of every product is its initial stock minus the total quantity
that the persisted order records for it. -/
theorem order_matches_stock_deductions (db : List Product) (items : List Item)
    (hu : (db.map Product.id).Nodup)
    (hs : (placeOrder db items).httpStatus = 201) :
    (placeOrder db items).order.items = items.map (adjustItem db) ∧
    (placeOrder db items).responseItems = some ((placeOrder db items).order.items) ∧
    ∀ pid s, stockOf db pid = some s →
      stockOf (placeOrder db items).db pid =
        some (s - orderedQty ((placeOrder db items).order.items) pid) := by
  by_cases hok : (processDecrements db (items.map (adjustItem db))).2 = true
  · refine ⟨by simp [placeOrder, hok], by simp [placeOrder, hok], ?_⟩
    intro pid s h0
    have hdb : (placeOrder db items).db =
        (processDecrements db (items.map (adjustItem db))).1 := by
      simp [placeOrder, hok]
    have hoi : (placeOrder db items).order.items = items.map (adjustItem db) := by
      simp [placeOrder, hok]
    rw [hdb, hoi]
    exact stockOf_processDecrements_success _ db hu hok pid s h0
  · exfalso
    have hfalse : (processDecrements db (items.map (adjustItem db))).2 = false := by
      cases h2 : (processDecrements db (items.map (adjustItem db))).2 with
      | true => exact absurd h2 hok
      | false => rfl
    have : (placeOrder db items).httpStatus = 500 := by
      simp [placeOrder, hfalse]
    omega

/-! ## Concrete data for witnesses and counterexamples -/

/-- A 300×300 tile with box MOQ 1 and ample stock. -/
def prodA : Product :=
  { id := 1, length_mm := some 300, width_mm := some 300, box_moq := some 1, stock := 10 }

/-- A product with no dimensions and zero stock. -/
def prodB : Product :=
  { id := 2, length_mm := none, width_mm := none, box_moq := none, stock := 0 }

/-- A plain quantity line for `prodA`. -/
def itemA : Item := { product_id := 1, quantity := 5, coverage := none }

/-- A plain quantity line for `prodB` (cannot be satisfied: stock is 0). -/
def itemB : Item := { product_id := 2, quantity := 5, coverage := none }

/-- A second plain quantity line for `prodA`, larger than the stock that
remains after `itemA` is taken out. -/
def itemA7 : Item := { product_id := 1, quantity := 7, coverage := none }

/-- A tile whose `length_mm` is negative: JS truthiness treats it as
present, so the area math is applied to it. -/
def pNeg : Product :=
  { id := 3, length_mm := some (-300), width_mm := some 300, box_moq := some 1, stock := 100 }

/-- A coverage line for `pNeg` with requested quantity 5. -/
def itemNeg : Item := { product_id := 3, quantity := 5, coverage := some 100 }

/-- A tile whose `length_mm` is 0, so its unit area is 0. -/
def pZero : Product :=
  { id := 4, length_mm := some 0, width_mm := some 300, box_moq := some 1, stock := 100 }

/-- A coverage line for `pZero` with requested quantity 5. -/
def itemZero : Item := { product_id := 4, quantity := 5, coverage := some 100 }

/-- A request whose only line carries a coverage but no quantity. -/
def reqNoQuantity : OrderRequest :=
  { items := [{ product_id := 1, quantity := none, coverage := some 100 }],
    totalAmount := 50, street := "s", city := "c", state := "st", zipCode := "z" }

/-- **C5 (counterexample).** A product with a negative `length_mm` and a
present coverage is NOT passed through: the truthy guard accepts the
negative dimension and the area math produces -103 instead of the
requested quantity 5. -/
theorem negative_dimension_not_passthrough :
    pNeg.length_mm = some (-300) ∧ itemNeg.coverage = some 100 ∧
    itemNeg.quantity = 5 ∧ (adjustItem [pNeg] itemNeg).quantity = -103 := by
  refine ⟨rfl, rfl, rfl, ?_⟩
  have hfind : List.find? (fun p => p.id == itemNeg.product_id) [pNeg] = some pNeg := by
    decide
  unfold adjustItem
  simp only [hfind]
  rw [if_pos (by decide)]
  show calculateTileQuantity ((some (-300 : ℚ)).getD 0) ((some (300 : ℚ)).getD 0)
    ((some (100 : ℚ)).getD 0) ((some (1 : ℤ)).getD 1) = -103
  simp only [Option.getD_some]
  simp only [calculateTileQuantity]
  norm_num
  rw [show (-(2500000 / 24219) : ℚ) = -2500000 / 24219 by norm_num]
  rw [Int.ceil_eq_iff] <;> norm_num

/-- **C5 (amended).** A line is passed through verbatim when its coverage
is absent or zero, or when every product row with its id has each dimension
absent or zero; a negative dimension, being truthy, does not trigger the
pass-through. -/
theorem passthrough_when_absent_or_zero (db : List Product) (item : Item)
    (h : item.coverage = none ∨ item.coverage = some 0 ∨
      ∀ p ∈ db, p.id = item.product_id →
        p.length_mm = none ∨ p.length_mm = some 0 ∨
        p.width_mm = none ∨ p.width_mm = some 0) :
    adjustItem db item = item := by
  unfold adjustItem
  cases hfind : db.find? (fun p => p.id == item.product_id) with
  | none => rfl
  | some p =>
      dsimp only
      rw [if_neg]
      intro hcond
      simp only [Bool.and_eq_true] at hcond
      obtain ⟨⟨hc, hl⟩, hw⟩ := hcond
      rcases h with h | h | h
      · rw [h] at hc
        simp [truthyQ] at hc
      · rw [h] at hc
        simp [truthyQ] at hc
      · have hp := h p (List.mem_of_find?_eq_some hfind)
          (by simpa using List.find?_some hfind)
        rcases hp with h0 | h0 | h0 | h0
        · rw [h0] at hl
          simp [truthyQ] at hl
        · rw [h0] at hl
          simp [truthyQ] at hl
        · rw [h0] at hw
          simp [truthyQ] at hw
        · rw [h0] at hw
          simp [truthyQ] at hw

theorem passthrough_when_absent_or_zero_witness :
    (itemB.coverage = none ∨ itemB.coverage = some 0 ∨
      ∀ p ∈ [prodB], p.id = itemB.product_id →
        p.length_mm = none ∨ p.length_mm = some 0 ∨
        p.width_mm = none ∨ p.width_mm = some 0) ∧
    adjustItem [prodB] itemB = itemB :=
  ⟨Or.inl rfl, passthrough_when_absent_or_zero [prodB] itemB (Or.inl rfl)⟩

/-- **C6 (counterexample).** A line whose product has unit area 0 and a
present coverage is NOT rejected: the request succeeds (201) and the line
is silently passed through with the requested quantity. -/
theorem zero_area_line_not_rejected :
    specAreaSqft (pZero.length_mm.getD 0) (pZero.width_mm.getD 0) = 0 ∧
    itemZero.coverage = some 100 ∧
    (placeOrder [pZero] [itemZero]).httpStatus = 201 ∧
    (placeOrder [pZero] [itemZero]).order.items = [itemZero] := by
  refine ⟨?_, rfl, ?_, ?_⟩
  · norm_num [specAreaSqft, pZero]
  · decide
  · decide

/-- **C6 (amended).** A line whose product has unit area 0 never reaches
the division: the truthy guard fails on the zero dimension and the line is
passed through with its requested quantity (silently, not rejected). -/
theorem zero_area_passthrough (db : List Product) (p : Product) (item : Item)
    (hfind : db.find? (fun r => r.id == item.product_id) = some p)
    (hz : specAreaSqft (p.length_mm.getD 0) (p.width_mm.getD 0) = 0) :
    adjustItem db item = item := by
  have hlw : (p.length_mm.getD 0) * (p.width_mm.getD 0) = 0 := by
    unfold specAreaSqft at hz
    rcases mul_eq_zero.mp hz with h | h
    · rcases div_eq_zero_iff.mp h with h' | h'
      · exact h'
      · norm_num at h'
    · norm_num at h
  unfold adjustItem
  simp only [hfind]
  rw [if_neg]
  intro hcond
  simp only [Bool.and_eq_true] at hcond
  obtain ⟨⟨-, hl⟩, hw⟩ := hcond
  rcases mul_eq_zero.mp hlw with h0 | h0
  · cases hlm : p.length_mm with
    | none =>
        rw [hlm] at hl
        simp [truthyQ] at hl
    | some x =>
        rw [hlm] at h0 hl
        simp only [Option.getD_some] at h0
        rw [h0] at hl
        simp [truthyQ] at hl
  · cases hwm : p.width_mm with
    | none =>
        rw [hwm] at hw
        simp [truthyQ] at hw
    | some x =>
        rw [hwm] at h0 hw
        simp only [Option.getD_some] at h0
        rw [h0] at hw
        simp [truthyQ] at hw

theorem zero_area_passthrough_witness :
    (List.find? (fun r => r.id == itemZero.product_id) [pZero] = some pZero) ∧
    specAreaSqft (pZero.length_mm.getD 0) (pZero.width_mm.getD 0) = 0 ∧
    adjustItem [pZero] itemZero = itemZero :=
  ⟨by decide, by norm_num [specAreaSqft, pZero],
    zero_area_passthrough [pZero] pZero itemZero (by decide)
      (by norm_num [specAreaSqft, pZero])⟩

/-- **C8 (counterexample).** The request whose only line supplies a
coverage but omits `quantity` is rejected by `validateOrder` (hence
answered 400), not accepted. -/
theorem coverage_without_quantity_rejected :
    reqNoQuantity.items.all (fun it => it.coverage.isSome) = true ∧
    validateOrder reqNoQuantity = false :=
  ⟨by decide, by decide⟩

/-- **C8 (amended).** `quantity` is mandatory: any request containing a
line without a `quantity` field fails validation and is answered 400,
whether or not the line carries a coverage. -/
theorem quantity_required_by_validation (r : OrderRequest) (it : ReqItem)
    (hmem : it ∈ r.items) (hq : it.quantity = none) :
    validateOrder r = false := by
  have hbad : isValidItem it = false := by
    simp [isValidItem, hq]
  have hall : r.items.all isValidItem = false := by
    rw [List.all_eq_false]
    exact ⟨it, hmem, by simp [hbad]⟩
  unfold validateOrder
  rw [hall]
  simp

theorem quantity_required_by_validation_witness :
    ({ product_id := 1, quantity := none, coverage := some 100 } : ReqItem)
        ∈ reqNoQuantity.items ∧
    ({ product_id := 1, quantity := none, coverage := some 100 } : ReqItem).quantity
        = none ∧
    validateOrder reqNoQuantity = false :=
  ⟨by decide, rfl,
    quantity_required_by_validation reqNoQuantity
      { product_id := 1, quantity := none, coverage := some 100 } (by decide) rfl⟩

theorem stock_never_negative_witness :
    (1 ≤ (5 : ℤ)) ∧ (∀ p ∈ [prodA], 0 ≤ p.stock) ∧
    ((∀ r ∈ [prodA], r.id = 1 → 5 ≤ r.stock →
        ∃ db2, update_product_stock [prodA] 1 5 = some db2 ∧
          ({ r with stock := r.stock - 5 } : Product) ∈ db2 ∧ 0 ≤ r.stock - 5) ∧
     ((∀ r ∈ [prodA], r.id = 1 → r.stock < 5) →
        update_product_stock [prodA] 1 5 = none) ∧
     (∀ db2, update_product_stock [prodA] 1 5 = some db2 → ∀ r ∈ db2, 0 ≤ r.stock) ∧
     (∀ r ∈ (processDecrements [prodA] [itemA]).1, 0 ≤ r.stock)) :=
  ⟨by decide, by decide,
    stock_never_negative [prodA] 1 5 [itemA] (by decide) (by decide)⟩

theorem cancelled_on_failed_decrement_witness :
    (processDecrements [prodB] ([itemB].map (adjustItem [prodB]))).2 = false ∧
    ((placeOrder [prodB] [itemB]).order.status = "cancelled" ∧
     (placeOrder [prodB] [itemB]).order.payment_status = "cancelled" ∧
     (placeOrder [prodB] [itemB]).httpStatus = 500 ∧
     (placeOrder [prodB] [itemB]).retry = true) :=
  ⟨by decide, cancelled_on_failed_decrement [prodB] [itemB] (by decide)⟩

theorem no_rollback_on_partial_failure_witness :
    (([prodA].map Product.id).Nodup ∧
     [itemA, itemA7].map (adjustItem [prodA]) = [itemA] ++ itemA7 :: [] ∧
     processDecrements [prodA] [itemA] = ([{ prodA with stock := 5 }], true) ∧
     update_product_stock [{ prodA with stock := 5 }] 1 7 = none) ∧
    ((placeOrder [prodA] [itemA, itemA7]).order.status = "cancelled" ∧
     (placeOrder [prodA] [itemA, itemA7]).order.payment_status = "cancelled" ∧
     (placeOrder [prodA] [itemA, itemA7]).db = [{ prodA with stock := 5 }] ∧
     ∀ pid s, stockOf [prodA] pid = some s →
       stockOf (placeOrder [prodA] [itemA, itemA7]).db pid =
         some (s - orderedQty [itemA] pid)) :=
  ⟨⟨by decide, by decide, by decide, by decide⟩,
    no_rollback_on_partial_failure [prodA] [itemA, itemA7] [itemA] itemA7 []
      [{ prodA with stock := 5 }] (by decide) (by decide) (by decide) (by decide)⟩

theorem order_matches_stock_deductions_witness :
    (([prodA].map Product.id).Nodup ∧
     (placeOrder [prodA] [itemA]).httpStatus = 201) ∧
    ((placeOrder [prodA] [itemA]).order.items = [itemA].map (adjustItem [prodA]) ∧
     (placeOrder [prodA] [itemA]).responseItems =
        some ((placeOrder [prodA] [itemA]).order.items) ∧
     ∀ pid s, stockOf [prodA] pid = some s →
       stockOf (placeOrder [prodA] [itemA]).db pid =
         some (s - orderedQty ((placeOrder [prodA] [itemA]).order.items) pid)) :=
  ⟨⟨by decide, by decide⟩,
    order_matches_stock_deductions [prodA] [itemA] (by decide) (by decide)⟩

end AppBackend
